import Mathlib

/-!
# Verification of the cppzmqzoltanext toolkit core logic

A shallow embedding of the pure/state-level logic of the library:
signal encoding/decoding (`signal.cpp`), the poller's wait error handling
(`poller.cpp`), the event loop's timer/socket dispatch, socket table
consistency and unique timer-id generation (`loop.cpp`), and the actor's
start/stop state machine (`actor.cpp`).

Conventions of the embedding:
* Machine integers are modelled as `Nat` (with an explicit modulus
  `UINT64_CARD = 2^64` where wraparound matters) and `Int` for signed
  millisecond quantities and steady-clock time points.
* Messages are byte lists (`List Nat`, each byte `< 256`), interpreted
  little-endian, matching the in-memory view `*msg.data<uint64_t>()`.
  The C++ bit operations `w & 0xFF` and `w & ~0xFFULL` (on a 64-bit word
  built from 8 bytes) are translated arithmetically as `w % 256` and
  `w - w % 256`.
* Fallible operations return `Option`/`Except`, or a `(state, flag)` pair
  when the C++ code throws before mutating.
* Callbacks (`std::function`) are modelled as pure boolean functions keyed
  by timer id / socket handle; callbacks that mutate the loop are outside
  the fragment these claims exercise.
-/

namespace Zmqzext

/-- The three variants of `signal_t::type_t` (success=1, failure=2, stop=3). -/
inductive SignalType where
  | success
  | failure
  | stop
deriving DecidableEq, Repr

/-- Numeric tag of a signal variant, as in the C++ enum. -/
def SignalType.tag : SignalType → Nat
  | .success => 1
  | .failure => 2
  | .stop => 3

/-- `SIGNAL_PREFIX = 0x7766554433221100ULL` from `signal.cpp`. -/
def SIGNAL_PREFIX : Nat := 0x7766554433221100

/-- Little-endian value of a byte list: byte 0 is least significant,
matching `*msg.data<uint64_t>()` reading the 8 message bytes. -/
def fromBytesLE : List Nat → Nat
  | [] => 0
  | b :: bs => b + 256 * fromBytesLE bs

/-- The `n` little-endian bytes of a word, matching
`zmq::message_t{&data, sizeof(uint64_t)}` writing the word's bytes. -/
def toBytesLE : Nat → Nat → List Nat
  | 0, _ => []
  | n + 1, w => w % 256 :: toBytesLE n (w / 256)

/-- `create_signal_message`: the 8-byte message holding
`SIGNAL_PREFIX | static_cast<uint8_t>(signal_type)`. Since the prefix's
low byte is zero and the tag is below 256, the bitwise or is addition. -/
def create_signal_message (signal_type : SignalType) : List Nat :=
  toBytesLE 8 (SIGNAL_PREFIX + signal_type.tag)

/-- `signal_t::check_signal`: length must be exactly 8; the word's high 56
bits (`w & ~0xFFULL`, here `w - w % 256`) must equal the prefix; the low
byte (`w & 0xFF`, here `w % 256`) selects the variant, anything outside
`{1,2,3}` is rejected. -/
def check_signal (msg : List Nat) : Option SignalType :=
  if msg.length ≠ 8 then none
  else
    let w := fromBytesLE msg
    if w - w % 256 ≠ SIGNAL_PREFIX then none
    else
      match w % 256 with
      | 1 => some .success
      | 2 => some .failure
      | 3 => some .stop
      | _ => none

/-! ## Poller (`poller.cpp`)

A socket handle is an opaque machine pointer, modelled as `Nat`; the null
handle is `0`. Transport (`zmq`) error numbers are plain `Nat`s. The two
transport-layer inputs a wait depends on — the interrupt latch reads
before and after `zmq::poll`, and `zmq::poll`'s own outcome — are passed
in explicitly. -/

/-- Opaque socket handle; `0` is the null handle. -/
abbrev Socket := Nat

/-- `EINTR` as seen through `e.num()`. -/
def EINTR : Nat := 4

/-- `ETERM` as seen through `e.num()` (ZMQ_HAUSNUMERO + 53). -/
def ETERM : Nat := 156384765

/-- The poller state: the ordered `_poll_items` registration list,
`_interruptible`, and `_terminated`. -/
structure PollerState where
  poll_items : List Socket
  interruptible : Bool
  terminated : Bool
deriving DecidableEq, Repr

/-- `poller_t::has_socket`. -/
def has_socket (st : PollerState) (handle : Socket) : Bool :=
  st.poll_items.any (fun item => item == handle)

/-- `poller_t::add`: throws `invalid_argument` (modelled `.error ()`) on a
null or duplicate socket, otherwise appends an entry. -/
def poller_add (st : PollerState) (socket : Socket) : Except Unit PollerState :=
  if socket = 0 then .error ()
  else if has_socket st socket then .error ()
  else .ok { st with poll_items := st.poll_items ++ [socket] }

/-- `poller_t::remove`: erases every entry with the given handle. -/
def poller_remove (st : PollerState) (socket : Socket) : PollerState :=
  { st with poll_items := st.poll_items.filter (fun item => item ≠ socket) }

/-- Outcome of the underlying `zmq::poll` call: either a per-item
readability flag list (aligned with `_poll_items`), or a thrown
`zmq::error_t` carrying `e.num()`. -/
inductive PollOutcome where
  | ready (revents : List Bool)
  | threw (errno : Nat)

/-- The ready sockets in registration order — the result-collection scan of
`wait_all` (`revents == ZMQ_POLLIN`). -/
def readySockets (items : List Socket) (revents : List Bool) : List Socket :=
  ((items.zip revents).filter (fun p => p.2)).map (fun p => p.1)

/-- `poller_t::wait_all`. `pre`/`post` are the two `is_interrupted()` latch
reads around `zmq::poll`; a `.error e` result models the rethrow of a
transport error other than EINTR/ETERM. -/
def poller_wait_all (st : PollerState) (pre post : Bool) (poll : PollOutcome) :
    PollerState × Except Nat (List Socket) :=
  if pre && st.interruptible then ({ st with terminated := true }, .ok [])
  else
    let st1 := { st with terminated := false }
    match poll with
    | .ready revents =>
      if post && st1.interruptible then ({ st1 with terminated := true }, .ok [])
      else (st1, .ok (readySockets st1.poll_items revents))
    | .threw e =>
      if e = EINTR then
        if st1.interruptible then ({ st1 with terminated := true }, .ok [])
        else (st1, .ok [])
      else if e = ETERM then ({ st1 with terminated := true }, .ok [])
      else (st1, .error e)

/-- `poller_t::wait`: same control flow, returning only the first ready
socket in registration order (`none` models the empty `socket_ref`). -/
def poller_wait (st : PollerState) (pre post : Bool) (poll : PollOutcome) :
    PollerState × Except Nat (Option Socket) :=
  if pre && st.interruptible then ({ st with terminated := true }, .ok none)
  else
    let st1 := { st with terminated := false }
    match poll with
    | .ready revents =>
      if post && st1.interruptible then ({ st1 with terminated := true }, .ok none)
      else (st1, .ok (readySockets st1.poll_items revents).head?)
    | .threw e =>
      if e = EINTR then
        if st1.interruptible then ({ st1 with terminated := true }, .ok none)
        else (st1, .ok none)
      else if e = ETERM then ({ st1 with terminated := true }, .ok none)
      else (st1, .error e)

/-! ## Event loop (`loop.cpp`, `loop.h`)

`timer_id_t` is `std::size_t`, a 64-bit unsigned integer; `UINT64_CARD` is
its cardinality and `(· + 1) % UINT64_CARD` models the wrapping
pre-increment. Steady-clock time points and millisecond durations are
`Int`s. A timer's handler (`fn_timer_handler_t`) and a socket's handler
(`fn_socket_handler_t`) are modelled as pure boolean functions keyed by
timer id / socket handle, supplied to `run` as `hT` / `hS`; the
return value is the handler's continue/stop verdict. -/

/-- Cardinality of `std::size_t` (64-bit). -/
def UINT64_CARD : Nat := 2 ^ 64

/-- The internal `loop_t::timer_t` record (minus the handler closure, which
is supplied separately, keyed by id). -/
structure Timer where
  id : Nat
  timeout : Int
  occurences : Nat
  next_occurence : Int
  removed : Bool
deriving DecidableEq, Repr

/-- The loop state the claims exercise: the owned poller's registration
list, the socket-handler table's key set, the timer list, and the
timer-id generator state. -/
structure LoopState where
  poll_items : List Socket
  socket_handlers : List Socket
  timer_handlers : List Timer
  last_timer_id : Nat
  timer_id_has_overflowed : Bool
deriving DecidableEq, Repr

/-- `loop_t::add`: register with the poller first; on success insert into
the handler table. `std::map::emplace` with a duplicate key does not throw,
it silently inserts nothing; the `catch` rollback fires only on an
exception from the insert (allocation failure, not modelled). A `false`
flag means the poller `add` threw, leaving the state untouched. -/
def loop_add (st : LoopState) (socket : Socket) : LoopState × Bool :=
  match poller_add ⟨st.poll_items, true, false⟩ socket with
  | .error _ => (st, false)
  | .ok p =>
    if st.socket_handlers.contains socket then
      ({ st with poll_items := p.poll_items }, true)
    else
      ({ st with poll_items := p.poll_items,
                 socket_handlers := st.socket_handlers ++ [socket] }, true)

/-- `loop_t::remove`: remove from the poller, then erase the handler-table
entry if present. -/
def loop_remove (st : LoopState) (socket : Socket) : LoopState :=
  let items := st.poll_items.filter (fun item => item ≠ socket)
  if st.socket_handlers.contains socket then
    { st with poll_items := items,
              socket_handlers := st.socket_handlers.erase socket }
  else { st with poll_items := items }

/-- `loop_t::remove_timer`: mark the matching timer removed; unknown id is
a no-op. -/
def loop_remove_timer (st : LoopState) (timer_id : Nat) : LoopState :=
  { st with timer_handlers :=
      st.timer_handlers.map (fun t => if t.id = timer_id then { t with removed := true } else t) }

/-- `loop_t::removeFlagedTimers`: drop every timer whose `removed` flag is
set (`std::list::remove_if`). -/
def removeFlagedTimers (timers : List Timer) : List Timer :=
  timers.filter (fun t => !t.removed)

/-- The scan loop of `generate_unique_timer_id` entered while
`_timer_id_has_overflowed`: while some live timer holds the candidate,
pre-increment; if the increment wraps to zero, throw (`none`). `fuel`
bounds the recursion; `UINT64_CARD` iterations always suffice because the
counter is incremented each round and throws at zero. Both the id and the
counter travel together because the candidate always equals the counter. -/
def scanForFree (timers : List Timer) : Nat → Nat → Option (Nat × Nat)
  | 0, _ => none
  | fuel + 1, timer_id =>
    if timers.any (fun t => t.id == timer_id) then
      let next := (timer_id + 1) % UINT64_CARD
      if next = 0 then none
      else scanForFree timers fuel next
    else some (timer_id, timer_id)

/-- `loop_t::generate_unique_timer_id`: pre-increment `_last_timer_id`; on
wrap to zero set `_timer_id_has_overflowed` and increment again; while
overflowed, scan the live timer list for a free candidate, throwing
(`none`) if the scan itself wraps to zero. Returns
`(timer_id, last_timer_id, timer_id_has_overflowed)`. -/
def generate_unique_timer_id (timers : List Timer) (last : Nat) (overflowed : Bool) :
    Option (Nat × Nat × Bool) :=
  let last1 := (last + 1) % UINT64_CARD
  if last1 = 0 then
    match scanForFree timers UINT64_CARD 1 with
    | none => none
    | some (id, last2) => some (id, last2, true)
  else if overflowed then
    match scanForFree timers UINT64_CARD last1 with
    | none => none
    | some (id, last2) => some (id, last2, overflowed)
  else some (last1, last1, overflowed)

/-- `loop_t::add_timer`: allocate a unique id, seed
`next_occurence = now() + timeout`, append the record. `none` models the
"no id available" exception. -/
def loop_add_timer (st : LoopState) (now timeout : Int) (occurences : Nat) :
    Option (Nat × LoopState) :=
  match generate_unique_timer_id st.timer_handlers st.last_timer_id st.timer_id_has_overflowed with
  | none => none
  | some (timer_id, last, ovf) =>
    some (timer_id,
      { st with
        timer_handlers := st.timer_handlers ++ [⟨timer_id, timeout, occurences, now + timeout, false⟩]
        last_timer_id := last
        timer_id_has_overflowed := ovf })

/-- The timer loop of `loop_t::run` (one tick): visit the list in order; a
timer that is not `removed` and whose `next_occurence` has passed fires.
A `false` verdict breaks immediately (the current record and the rest of
the list untouched). Otherwise, `occurences > 0 && --occurences == 0`
erases the timer; else the deadline advances by `timeout` (after the
decrement when `occurences > 0`). Returns the updated list, the
`should_continue` flag and the ids fired in order. -/
def fireTimers (hT : Nat → Bool) (current_time : Int) :
    List Timer → List Timer × Bool × List Nat
  | [] => ([], true, [])
  | t :: rest =>
    if t.removed = false ∧ current_time ≥ t.next_occurence then
      if hT t.id = false then (t :: rest, false, [t.id])
      else if t.occurences > 0 ∧ t.occurences - 1 = 0 then
        let r := fireTimers hT current_time rest
        (r.1, r.2.1, t.id :: r.2.2)
      else
        let t' := if t.occurences > 0 then
            { t with occurences := t.occurences - 1,
                     next_occurence := t.next_occurence + t.timeout }
          else { t with next_occurence := t.next_occurence + t.timeout }
        let r := fireTimers hT current_time rest
        (t' :: r.1, r.2.1, t.id :: r.2.2)
    else
      let r := fireTimers hT current_time rest
      (t :: r.1, r.2.1, r.2.2)

/-- The socket loop of `loop_t::run` (one tick): visit the ready sockets in
the order the poller returned them, invoking the handler of each socket
still present in the table; a `false` verdict breaks. Returns the
`should_continue` flag and the sockets whose handler ran, in order. -/
def fireSockets (hS : Socket → Bool) (table : List Socket) :
    List Socket → Bool × List Socket
  | [] => (true, [])
  | s :: rest =>
    if table.contains s then
      if hS s = false then (false, [s])
      else
        let r := fireSockets hS table rest
        (r.1, s :: r.2)
    else fireSockets hS table rest

/-- A handler invocation recorded by a tick, in invocation order. -/
inductive Event where
  | timer (id : Nat)
  | socket (s : Socket)
deriving DecidableEq, Repr

/-- What the environment supplies to one tick: the poller's `wait_all`
result, its `terminated()` flag after the wait, and the re-read `now()`. -/
structure TickEnv where
  ready : List Socket
  terminated : Bool
  time : Int
deriving Repr

/-- How a `loop_t::run` invocation ended. -/
inductive RunOutcome where
  | exhausted          -- no sockets and no timers left
  | terminated         -- the poller reported termination
  | stoppedByHandler   -- some handler returned false
  | outOfFuel
deriving DecidableEq, Repr

/-- One iteration of `loop_t::run` after the garbage-collect and emptiness
checks: fire due timers, then — unless a timer handler stopped the loop —
fire ready sockets. Returns the updated timer list, the `should_continue`
flag and the tick's event trace. -/
def runTick (hT : Nat → Bool) (hS : Socket → Bool) (table : List Socket)
    (env : TickEnv) (timers : List Timer) : List Timer × Bool × List Event :=
  let ft := fireTimers hT env.time timers
  if ft.2.1 = false then (ft.1, false, ft.2.2.map Event.timer)
  else
    let fs := fireSockets hS table env.ready
    (ft.1, fs.1, ft.2.2.map Event.timer ++ fs.2.map Event.socket)

/-- `loop_t::run`: each iteration garbage-collects removed timers, returns
on exhaustion, polls (outcome supplied by `env`, indexed by remaining
fuel), returns if the poller terminated, and runs one tick; a `false`
verdict ends the loop after the current iteration. Also returns the final
state and the concatenated event trace. -/
def run (hT : Nat → Bool) (hS : Socket → Bool) (env : Nat → TickEnv) :
    Nat → LoopState → RunOutcome × LoopState × List Event
  | 0, st => (.outOfFuel, st, [])
  | fuel + 1, st =>
    let st1 := { st with timer_handlers := removeFlagedTimers st.timer_handlers }
    if st1.poll_items.length = 0 ∧ st1.timer_handlers.length = 0 then
      (.exhausted, st1, [])
    else
      let e := env fuel
      if e.terminated then (.terminated, st1, [])
      else
        let tick := runTick hT hS st1.socket_handlers e st1.timer_handlers
        let st2 := { st1 with timer_handlers := tick.1 }
        if tick.2.1 = false then (.stoppedByHandler, st2, tick.2.2)
        else
          let r := run hT hS env fuel st2
          (r.1, r.2.1, tick.2.2 ++ r.2.2)

/-! ## Actor (`actor.cpp`)

The actor's parent-side state: the `_started` / `_stopped` flags and
whether the parent socket is still open. The worker thread and the
transport are the environment: `start` is given the outcome of its one
blocking receive (`none` models a receive that returns no message), and
whether the shared exception cell holds a saved exception at the moment
it is consumed; `stop` is given its non-blocking send's outcome and the
sequence of receive outcomes its drain loop observes. -/

/-- `_started`, `_stopped` and the parent socket's open/closed status. -/
structure ActorState where
  started : Bool
  stopped : Bool
  parent_open : Bool
deriving DecidableEq, Repr

/-- How `actor_t::start` returns: normally, or by one of its throws. -/
inductive StartResult where
  | ok                  -- Success signal received
  | alreadyStarted      -- throw "Actor already started"
  | threwSaved          -- rethrow of the exception saved in the cell
  | threwInitFailed     -- throw "Actor initialization failed"
  | threwNoSignal       -- throw "Failed to receive initialization signal"
deriving DecidableEq, Repr

/-- `actor_t::start` (lines 82–116): fail if already started; set
`_started`; block for one message. A message decoding as a Success signal
returns normally. Any other message — Failure, Stop, or a non-signal
payload — sets `_stopped`, closes the parent socket, and throws the saved
exception if the cell holds one, else "Actor initialization failed". A
receive with no message sets `_stopped`, closes, and throws "Failed to
receive initialization signal". -/
def actor_start (st : ActorState) (saved_exception : Bool) (recv : Option (List Nat)) :
    ActorState × StartResult :=
  if st.started then (st, .alreadyStarted)
  else
    let st1 := { st with started := true }
    match recv with
    | some msg =>
      match check_signal msg with
      | some .success => (st1, .ok)
      | _ =>
        ({ st1 with stopped := true, parent_open := false },
         if saved_exception then .threwSaved else .threwInitFailed)
    | none =>
      ({ st1 with stopped := true, parent_open := false }, .threwNoSignal)

/-- The drain loop of `actor_t::stop` (lines 137–153): receive until either
no message arrives (peer gone / timed out → `stopped`, close, return
`false`) or a message decodes as any signal (→ `stopped`, close, return
`true`); non-signal payloads are discarded and the loop continues. `none`
means the supplied receive sequence ran out before the loop resolved. -/
def stopRecvLoop (st : ActorState) : List (Option (List Nat)) → Option (ActorState × Bool)
  | [] => none
  | recv :: rest =>
    match recv with
    | none => some ({ st with stopped := true, parent_open := false }, false)
    | some msg =>
      if (check_signal msg).isSome then
        some ({ st with stopped := true, parent_open := false }, true)
      else stopRecvLoop st rest

/-- `actor_t::stop` (lines 118–158): return `true` at once if not started
or already stopped; send a Stop signal non-blockingly — on failure the
child is considered dead (`stopped`, close, `true`); otherwise drain the
parent socket via `stopRecvLoop`. -/
def actor_stop (st : ActorState) (send_ok : Bool) (recvs : List (Option (List Nat))) :
    Option (ActorState × Bool) :=
  if st.started = false ∨ st.stopped = true then some (st, true)
  else if send_ok = false then
    some ({ st with stopped := true, parent_open := false }, true)
  else stopRecvLoop st recvs

/-! ## C1 — Signal encoding round-trips and rejects everything else -/

/-- On an 8-byte message, decoding reduces to: accept only when the high 56
bits of the little-endian word match the prefix, then select on the low
byte, which equals the first byte of the message. -/
theorem check_signal_cons_eq (b0 : Nat) (rest : List Nat) (hlen : rest.length = 7)
    (hb : b0 < 256) :
    check_signal (b0 :: rest) =
      if 256 * fromBytesLE rest = SIGNAL_PREFIX then
        if b0 = 1 then some SignalType.success
        else if b0 = 2 then some SignalType.failure
        else if b0 = 3 then some SignalType.stop
        else none
      else none := by
  have hlen8 : (b0 :: rest).length = 8 := by simp [hlen]
  have hmod : (b0 + 256 * fromBytesLE rest) % 256 = b0 := by omega
  have hsub : b0 + 256 * fromBytesLE rest - b0 = 256 * fromBytesLE rest := by omega
  unfold check_signal
  rw [if_neg (not_not_intro hlen8)]
  show (if (b0 + 256 * fromBytesLE rest) - (b0 + 256 * fromBytesLE rest) % 256 ≠ SIGNAL_PREFIX
        then none
        else match (b0 + 256 * fromBytesLE rest) % 256 with
          | 1 => some SignalType.success
          | 2 => some SignalType.failure
          | 3 => some SignalType.stop
          | _ => none) = _
  rw [hmod, hsub]
  by_cases hc : 256 * fromBytesLE rest = SIGNAL_PREFIX
  · rw [if_neg (not_not_intro hc), if_pos hc]
    rcases b0 with _ | _ | _ | _ | n <;> rfl
  · rw [if_pos hc, if_neg hc]

/-- C1: Signal encoding round-trips and rejects everything else: decoding
the 8-byte message produced by encoding any of the three variants yields
that variant; any byte sequence whose length is not 8 decodes to none; and
any 8-byte sequence whose high 56 bits (bytes 1..7, little-endian) differ
from the prefix, or whose low byte is not in {1,2,3}, decodes to none. -/
theorem C1_signal_roundtrip_and_reject :
    (∀ s : SignalType, check_signal (create_signal_message s) = some s) ∧
    (∀ bs : List Nat, bs.length ≠ 8 → check_signal bs = none) ∧
    (∀ b0 rest, (b0 :: rest : List Nat).length = 8 → (∀ b ∈ b0 :: rest, b < 256) →
      (fromBytesLE rest ≠ 0x77665544332211 → check_signal (b0 :: rest) = none) ∧
      (b0 ≠ 1 ∧ b0 ≠ 2 ∧ b0 ≠ 3 → check_signal (b0 :: rest) = none)) := by
  refine ⟨fun s => by cases s <;> rfl, fun bs h => ?_, fun b0 rest hlen hbytes => ?_⟩
  · unfold check_signal
    rw [if_pos h]
  · have hlen7 : rest.length = 7 := by simpa using hlen
    have hb : b0 < 256 := hbytes b0 (by simp)
    rw [check_signal_cons_eq b0 rest hlen7 hb]
    constructor
    · intro hR
      rw [if_neg (by unfold SIGNAL_PREFIX; omega)]
    · rintro ⟨h1, h2, h3⟩
      by_cases hc : 256 * fromBytesLE rest = SIGNAL_PREFIX
      · rw [if_pos hc, if_neg h1, if_neg h2, if_neg h3]
      · rw [if_neg hc]

/-- Witness for C1 at concrete inputs: the empty message and an 8-byte
message with a correct prefix but tag byte 5 are both rejected. -/
theorem C1_signal_roundtrip_and_reject_witness :
    check_signal ([] : List Nat) = none ∧
    check_signal [5, 0x11, 0x22, 0x33, 0x44, 0x55, 0x66, 0x77] = none :=
  ⟨C1_signal_roundtrip_and_reject.2.1 [] (by decide),
   (C1_signal_roundtrip_and_reject.2.2 5 [0x11, 0x22, 0x33, 0x44, 0x55, 0x66, 0x77]
      (by decide) (by decide)).2 (by decide)⟩

/-! ## C3 — Loop/Poller socket consistency -/

/-- The Loop's socket consistency invariant: the handler table's key set
has no duplicates (map keys are unique), and a socket is registered in the
poller iff it is in the handler table. -/
def LoopSocketInv (st : LoopState) : Prop :=
  st.socket_handlers.Nodup ∧ ∀ x : Socket, x ∈ st.poll_items ↔ x ∈ st.socket_handlers

/-- Membership in the poller list after a loop-level remove. -/
theorem loop_remove_poll_mem (st : LoopState) (s x : Socket) :
    x ∈ (loop_remove st s).poll_items ↔ x ∈ st.poll_items ∧ x ≠ s := by
  unfold loop_remove
  split <;> simp [List.mem_filter]

/-- Membership in the handler table after a loop-level remove (uses the
table's key uniqueness). -/
theorem loop_remove_table_mem (st : LoopState) (s x : Socket)
    (hnd : st.socket_handlers.Nodup) :
    x ∈ (loop_remove st s).socket_handlers ↔ x ∈ st.socket_handlers ∧ x ≠ s := by
  unfold loop_remove
  by_cases hc : st.socket_handlers.contains s
  · rw [if_pos hc]
    dsimp only
    rw [hnd.mem_erase_iff]
    tauto
  · rw [if_neg hc]
    dsimp only
    have hs : s ∉ st.socket_handlers := by simpa using hc
    constructor
    · intro hx
      exact ⟨hx, fun he => hs (he ▸ hx)⟩
    · exact fun hx => hx.1

/-- Running the loop never touches the poller's registration list or the
socket-handler table (handlers are pure in this embedding). -/
theorem run_preserves_socket_tables (hT : Nat → Bool) (hS : Socket → Bool)
    (env : Nat → TickEnv) :
    ∀ (fuel : Nat) (st : LoopState),
      (run hT hS env fuel st).2.1.poll_items = st.poll_items ∧
      (run hT hS env fuel st).2.1.socket_handlers = st.socket_handlers := by
  intro fuel
  induction fuel with
  | zero => intro st; exact ⟨rfl, rfl⟩
  | succ fuel ih =>
    intro st
    rw [run]
    dsimp only
    by_cases h1 : st.poll_items.length = 0 ∧ (removeFlagedTimers st.timer_handlers).length = 0
    · rw [if_pos h1]
      exact ⟨rfl, rfl⟩
    · rw [if_neg h1]
      by_cases h2 : (env fuel).terminated = true
      · rw [if_pos h2]
        exact ⟨rfl, rfl⟩
      · rw [if_neg h2]
        by_cases h3 : (runTick hT hS st.socket_handlers (env fuel)
            (removeFlagedTimers st.timer_handlers)).2.1 = false
        · rw [if_pos h3]
          exact ⟨rfl, rfl⟩
        · rw [if_neg h3]
          exact ih _

/-- C3: a failed add_socket leaves both structures unchanged; add_socket
preserves the consistency invariant and, on success, registers the socket
in both the poller and the handler table; remove_socket removes the socket
from both and preserves the invariant; and running the loop preserves the
invariant as well. -/
theorem C3_loop_socket_consistency (st : LoopState) (s : Socket)
    (hinv : LoopSocketInv st) :
    ((loop_add st s).2 = false → (loop_add st s).1 = st) ∧
    LoopSocketInv (loop_add st s).1 ∧
    ((loop_add st s).2 = true →
      s ∈ (loop_add st s).1.poll_items ∧ s ∈ (loop_add st s).1.socket_handlers) ∧
    LoopSocketInv (loop_remove st s) ∧
    (s ∉ (loop_remove st s).poll_items ∧ s ∉ (loop_remove st s).socket_handlers) ∧
    (∀ (hT : Nat → Bool) (hS : Socket → Bool) (env : Nat → TickEnv) (fuel : Nat),
      LoopSocketInv (run hT hS env fuel st).2.1) := by
  obtain ⟨hnd, hiff⟩ := hinv
  have hremp : ∀ x, x ∈ (loop_remove st s).poll_items ↔ x ∈ st.poll_items ∧ x ≠ s :=
    loop_remove_poll_mem st s
  have hremt : ∀ x, x ∈ (loop_remove st s).socket_handlers ↔ x ∈ st.socket_handlers ∧ x ≠ s :=
    fun x => loop_remove_table_mem st s x hnd
  have hremnd : (loop_remove st s).socket_handlers.Nodup := by
    unfold loop_remove
    split <;> dsimp only
    · exact hnd.erase s
    · exact hnd
  have hrem : LoopSocketInv (loop_remove st s) ∧
      s ∉ (loop_remove st s).poll_items ∧ s ∉ (loop_remove st s).socket_handlers :=
    ⟨⟨hremnd, fun x => by rw [hremp x, hremt x, hiff x]⟩,
     fun hx => by simp [hremp s] at hx, fun hx => by simp [hremt s] at hx⟩
  have hrun : ∀ (hT : Nat → Bool) (hS : Socket → Bool) (env : Nat → TickEnv) (fuel : Nat),
      LoopSocketInv (run hT hS env fuel st).2.1 := by
    intro hT hS env fuel
    obtain ⟨e1, e2⟩ := run_preserves_socket_tables hT hS env fuel st
    constructor
    · rw [e2]
      exact hnd
    · intro x
      rw [e1, e2]
      exact hiff x
  by_cases h0 : s = 0
  · have hval : loop_add st s = (st, false) := by
      simp [loop_add, poller_add, h0]
    rw [hval]
    exact ⟨fun _ => rfl, ⟨hnd, hiff⟩, fun h => by simp at h, hrem.1, hrem.2, hrun⟩
  · by_cases hps : s ∈ st.poll_items
    · have hval : loop_add st s = (st, false) := by
        simp [loop_add, poller_add, has_socket, h0, hps]
      rw [hval]
      exact ⟨fun _ => rfl, ⟨hnd, hiff⟩, fun h => by simp at h, hrem.1, hrem.2, hrun⟩
    · have hts : s ∉ st.socket_handlers := fun hmem => hps ((hiff s).mpr hmem)
      have hval : loop_add st s =
          ({ st with poll_items := st.poll_items ++ [s],
                     socket_handlers := st.socket_handlers ++ [s] }, true) := by
        simp [loop_add, poller_add, has_socket, h0, hps, hts]
      rw [hval]
      refine ⟨fun h => by simp at h, ⟨?_, ?_⟩, fun _ => ⟨by simp, by simp⟩, hrem.1, hrem.2, hrun⟩
      · dsimp only
        rw [List.nodup_append]
        refine ⟨hnd, List.nodup_singleton s, fun a ha hb => ?_⟩
        simp only [List.mem_singleton] at hb
        exact hts (hb ▸ ha)
      · intro x
        dsimp only
        simp only [List.mem_append, List.mem_singleton]
        rw [hiff x]

/-- Witness for C3: at the empty loop state, adding socket 7 preserves the
invariant. -/
theorem C3_loop_socket_consistency_witness :
    LoopSocketInv (loop_add ⟨[], [], [], 0, false⟩ 7).1 :=
  (C3_loop_socket_consistency ⟨[], [], [], 0, false⟩ 7
    ⟨List.nodup_nil, fun x => by simp⟩).2.1

/-! ## C4 — Poller wait / wait_all transport-error handling -/

/-- C4: when the poll is reached (the pre-check did not fire) and the
transport throws: EINTR with the poller interruptible sets terminated and
returns empty; EINTR with the poller not interruptible returns empty with
terminated false; ETERM always sets terminated and returns empty; any
other error number is rethrown unchanged, in both wait and wait_all. -/
theorem C4_poller_wait_transport_errors (st : PollerState) (pre post : Bool) (e : Nat)
    (hpre : (pre && st.interruptible) = false) :
    (e = EINTR → st.interruptible = true →
      poller_wait_all st pre post (.threw e) = ({ st with terminated := true }, .ok []) ∧
      poller_wait st pre post (.threw e) = ({ st with terminated := true }, .ok none)) ∧
    (e = EINTR → st.interruptible = false →
      poller_wait_all st pre post (.threw e) = ({ st with terminated := false }, .ok []) ∧
      poller_wait st pre post (.threw e) = ({ st with terminated := false }, .ok none)) ∧
    (e = ETERM →
      poller_wait_all st pre post (.threw e) = ({ st with terminated := true }, .ok []) ∧
      poller_wait st pre post (.threw e) = ({ st with terminated := true }, .ok none)) ∧
    (e ≠ EINTR → e ≠ ETERM →
      poller_wait_all st pre post (.threw e) = ({ st with terminated := false }, .error e) ∧
      poller_wait st pre post (.threw e) = ({ st with terminated := false }, .error e)) := by
  refine ⟨fun he hint => ?_, fun he hint => ?_, fun he => ?_, fun h1 h2 => ?_⟩
  · subst he
    constructor <;> simp [poller_wait_all, poller_wait, hpre, hint]
  · subst he
    constructor <;> simp [poller_wait_all, poller_wait, hpre, hint]
  · subst he
    have hne : ETERM ≠ EINTR := by decide
    constructor <;> simp [poller_wait_all, poller_wait, hpre, hne]
  · constructor <;> simp [poller_wait_all, poller_wait, hpre, h1, h2]

/-- Witness for C4: a fresh interruptible poller hit by an EINTR throw
terminates with an empty result. -/
theorem C4_poller_wait_transport_errors_witness :
    poller_wait_all ⟨[], true, false⟩ false false (.threw EINTR) =
      (⟨[], true, true⟩, .ok []) :=
  ((C4_poller_wait_transport_errors ⟨[], true, false⟩ false false EINTR (by rfl)).1
    rfl rfl).1

/-! ## The timer loop: evaluation lemmas -/

/-- A timer is due at a given time when it is not marked removed and its
deadline has passed — the firing guard of the timer loop. -/
def dueTimer (time : Int) (t : Timer) : Bool :=
  !t.removed && decide (time ≥ t.next_occurence)

/-- The record a surviving firing leaves behind: decrement the remaining
occurrences when they are finite, and advance the deadline by the
interval. -/
def firedTimer (t : Timer) : Timer :=
  if t.occurences > 0 then
    { t with occurences := t.occurences - 1, next_occurence := t.next_occurence + t.timeout }
  else { t with next_occurence := t.next_occurence + t.timeout }

/-- A timer that is not due is skipped unchanged. -/
theorem fireTimers_cons_skip (hT : Nat → Bool) (time : Int) (t : Timer)
    (rest : List Timer) (hg : ¬(t.removed = false ∧ time ≥ t.next_occurence)) :
    fireTimers hT time (t :: rest) =
      (t :: (fireTimers hT time rest).1, (fireTimers hT time rest).2) := by
  simp only [fireTimers]
  rw [if_neg hg]

/-- A due timer whose handler vetoes continuation breaks the loop at once,
leaving its own record and the rest of the list untouched. -/
theorem fireTimers_cons_break (hT : Nat → Bool) (time : Int) (t : Timer)
    (rest : List Timer) (hg : t.removed = false ∧ time ≥ t.next_occurence)
    (hh : hT t.id = false) :
    fireTimers hT time (t :: rest) = (t :: rest, false, [t.id]) := by
  simp only [fireTimers]
  rw [if_pos hg, if_pos hh]

/-- A due timer on its last occurrence fires and is erased. -/
theorem fireTimers_cons_erase (hT : Nat → Bool) (time : Int) (t : Timer)
    (rest : List Timer) (hg : t.removed = false ∧ time ≥ t.next_occurence)
    (hh : hT t.id = true) (ho : t.occurences = 1) :
    fireTimers hT time (t :: rest) =
      ((fireTimers hT time rest).1, (fireTimers hT time rest).2.1,
        t.id :: (fireTimers hT time rest).2.2) := by
  simp only [fireTimers]
  rw [if_pos hg, if_neg (by simp [hh]), if_pos (by omega)]

/-- A due timer not on its last occurrence fires and survives as
`firedTimer t`. -/
theorem fireTimers_cons_fire (hT : Nat → Bool) (time : Int) (t : Timer)
    (rest : List Timer) (hg : t.removed = false ∧ time ≥ t.next_occurence)
    (hh : hT t.id = true) (ho : t.occurences ≠ 1) :
    fireTimers hT time (t :: rest) =
      (firedTimer t :: (fireTimers hT time rest).1, (fireTimers hT time rest).2.1,
        t.id :: (fireTimers hT time rest).2.2) := by
  simp only [fireTimers]
  rw [if_pos hg, if_neg (by simp [hh]), if_neg (by omega)]
  rfl

/-- When the timer loop runs to the end of the list (no handler vetoed),
the ids it fired are exactly the due timers, in list order, each once. -/
theorem fireTimers_fired_of_continue (hT : Nat → Bool) (time : Int) :
    ∀ ts : List Timer, (fireTimers hT time ts).2.1 = true →
      (fireTimers hT time ts).2.2 = (ts.filter (dueTimer time)).map Timer.id := by
  intro ts
  induction ts with
  | nil => intro _; rfl
  | cons t rest ih =>
    intro hc
    by_cases hg : t.removed = false ∧ time ≥ t.next_occurence
    · have hdue : dueTimer time t = true := by
        simp only [dueTimer, Bool.and_eq_true, Bool.not_eq_true', decide_eq_true_eq]
        exact ⟨hg.1, hg.2⟩
      cases hh : hT t.id with
      | false =>
        rw [fireTimers_cons_break hT time t rest hg hh] at hc
        simp at hc
      | true =>
        by_cases ho : t.occurences = 1
        · rw [fireTimers_cons_erase hT time t rest hg hh ho] at hc ⊢
          rw [List.filter_cons_of_pos hdue]
          simpa using ih hc
        · rw [fireTimers_cons_fire hT time t rest hg hh ho] at hc ⊢
          rw [List.filter_cons_of_pos hdue]
          simpa using ih hc
    · have hdue : dueTimer time t = false := by
        rw [Bool.eq_false_iff]
        intro hdt
        apply hg
        simpa only [dueTimer, Bool.and_eq_true, Bool.not_eq_true', decide_eq_true_eq] using hdt
      rw [fireTimers_cons_skip hT time t rest hg] at hc ⊢
      rw [List.filter_cons_of_neg (by simp [hdue])]
      exact ih hc

/-- When the timer loop traverses a prefix without a veto, its effect on an
appended suffix composes: the processed prefix is followed by the processed
suffix, and the fired ids concatenate. -/
theorem fireTimers_append (hT : Nat → Bool) (time : Int) :
    ∀ pre suf : List Timer, (fireTimers hT time pre).2.1 = true →
      fireTimers hT time (pre ++ suf) =
        ((fireTimers hT time pre).1 ++ (fireTimers hT time suf).1,
          (fireTimers hT time suf).2.1,
          (fireTimers hT time pre).2.2 ++ (fireTimers hT time suf).2.2) := by
  intro pre
  induction pre with
  | nil => intro suf _; simp [fireTimers]
  | cons t rest ih =>
    intro suf hc
    by_cases hg : t.removed = false ∧ time ≥ t.next_occurence
    · cases hh : hT t.id with
      | false =>
        rw [fireTimers_cons_break hT time t rest hg hh] at hc
        simp at hc
      | true =>
        by_cases ho : t.occurences = 1
        · rw [fireTimers_cons_erase hT time t rest hg hh ho] at hc
          rw [List.cons_append, fireTimers_cons_erase hT time t (rest ++ suf) hg hh ho,
            fireTimers_cons_erase hT time t rest hg hh ho, ih suf hc]
          simp
        · rw [fireTimers_cons_fire hT time t rest hg hh ho] at hc
          rw [List.cons_append, fireTimers_cons_fire hT time t (rest ++ suf) hg hh ho,
            fireTimers_cons_fire hT time t rest hg hh ho, ih suf hc]
          simp
    · rw [fireTimers_cons_skip hT time t rest hg] at hc
      rw [List.cons_append, fireTimers_cons_skip hT time t (rest ++ suf) hg,
        fireTimers_cons_skip hT time t rest hg, ih suf hc]
      simp

/-! ## C10 — a vetoing handler leaves its own timer and all later timers
unchanged -/

/-- C10: when the handler of a due timer returns false, the firing loop
breaks at once: the vetoing timer's record is returned unchanged (its
occurrence count not decremented, its deadline not advanced, the record
not erased), every timer after it in the list keeps its state, and the
only handlers that ran this tick are those of the earlier timers plus the
vetoing one. -/
theorem C10_veto_leaves_timer_and_suffix_unchanged (hT : Nat → Bool) (time : Int)
    (pre : List Timer) (t : Timer) (suf : List Timer)
    (hc : (fireTimers hT time pre).2.1 = true)
    (hr : t.removed = false) (hd : time ≥ t.next_occurence) (hh : hT t.id = false) :
    fireTimers hT time (pre ++ t :: suf) =
      ((fireTimers hT time pre).1 ++ t :: suf, false,
        (fireTimers hT time pre).2.2 ++ [t.id]) := by
  rw [fireTimers_append hT time pre (t :: suf) hc,
    fireTimers_cons_break hT time t suf ⟨hr, hd⟩ hh]

/-- Witness for C10: a one-shot timer due at time 0 whose handler vetoes is
returned unchanged together with the timer after it. -/
theorem C10_veto_leaves_timer_and_suffix_unchanged_witness :
    fireTimers (fun _ => false) 0 ([] ++ ⟨1, 5, 1, 0, false⟩ :: [⟨2, 5, 1, 0, false⟩]) =
      ([] ++ ⟨1, 5, 1, 0, false⟩ :: [⟨2, 5, 1, 0, false⟩], false, [] ++ [1]) :=
  C10_veto_leaves_timer_and_suffix_unchanged (fun _ => false) 0 [] ⟨1, 5, 1, 0, false⟩
    [⟨2, 5, 1, 0, false⟩] (by rfl) (by rfl) (by decide) (by rfl)

/-! ## The socket loop: evaluation lemmas -/

/-- A ready socket absent from the handler table is skipped. -/
theorem fireSockets_cons_skip (hS : Socket → Bool) (table : List Socket) (s : Socket)
    (rest : List Socket) (hmem : table.contains s = false) :
    fireSockets hS table (s :: rest) = fireSockets hS table rest := by
  simp only [fireSockets]
  rw [if_neg (by rw [hmem]; exact Bool.false_ne_true)]

/-- A ready socket in the table whose handler vetoes breaks the socket
loop at once, having run only that handler. -/
theorem fireSockets_cons_break (hS : Socket → Bool) (table : List Socket) (s : Socket)
    (rest : List Socket) (hmem : table.contains s = true) (hh : hS s = false) :
    fireSockets hS table (s :: rest) = (false, [s]) := by
  simp only [fireSockets]
  rw [if_pos hmem, if_pos hh]

/-- A ready socket in the table whose handler continues is recorded and
the loop proceeds. -/
theorem fireSockets_cons_fire (hS : Socket → Bool) (table : List Socket) (s : Socket)
    (rest : List Socket) (hmem : table.contains s = true) (hh : hS s = true) :
    fireSockets hS table (s :: rest) =
      ((fireSockets hS table rest).1, s :: (fireSockets hS table rest).2) := by
  simp only [fireSockets]
  rw [if_pos hmem, if_neg (by simp [hh])]

/-- When the socket loop traverses a prefix of the ready list without a
veto, its effect on an appended suffix composes. -/
theorem fireSockets_append (hS : Socket → Bool) (table : List Socket) :
    ∀ pre suf : List Socket, (fireSockets hS table pre).1 = true →
      fireSockets hS table (pre ++ suf) =
        ((fireSockets hS table suf).1,
          (fireSockets hS table pre).2 ++ (fireSockets hS table suf).2) := by
  intro pre
  induction pre with
  | nil => intro suf _; simp [fireSockets]
  | cons s rest ih =>
    intro suf hc
    cases hmem : table.contains s with
    | false =>
      rw [fireSockets_cons_skip hS table s rest hmem] at hc
      rw [List.cons_append, fireSockets_cons_skip hS table s (rest ++ suf) hmem,
        fireSockets_cons_skip hS table s rest hmem, ih suf hc]
    | true =>
      cases hh : hS s with
      | false =>
        rw [fireSockets_cons_break hS table s rest hmem hh] at hc
        simp at hc
      | true =>
        rw [fireSockets_cons_fire hS table s rest hmem hh] at hc
        rw [List.cons_append, fireSockets_cons_fire hS table s (rest ++ suf) hmem hh,
          fireSockets_cons_fire hS table s rest hmem hh, ih suf hc]
        simp

/-! ## C2 — per-tick timer dispatch: due timers fire once, in order,
before socket handlers; a veto by any handler ends the run -/

/-- C2: after the poll of an iteration returns, (1) if no handler vetoes,
the handlers invoked by the timer loop are exactly those of the timers due
at the re-read time whose removed flag is clear, once each, in timer-list
order; (2) a tick's event trace is all timer events followed by all socket
events, so every due timer handler runs before any socket handler of the
tick; (3) if a timer handler returns false, the tick stops there and run
returns after the current iteration; (4) if a socket handler returns
false, no handler of a later ready socket runs that tick; (5) and run
likewise returns after the current iteration on a socket-handler veto. -/
theorem C2_timer_dispatch_order :
    (∀ (hT : Nat → Bool) (time : Int) (ts : List Timer),
      (fireTimers hT time ts).2.1 = true →
      (fireTimers hT time ts).2.2 = (ts.filter (dueTimer time)).map Timer.id) ∧
    (∀ (hT : Nat → Bool) (hS : Socket → Bool) (table : List Socket) (env : TickEnv)
      (ts : List Timer), ∃ (A : List Nat) (B : List Socket),
      (runTick hT hS table env ts).2.2 = A.map Event.timer ++ B.map Event.socket ∧
      A = (fireTimers hT env.time ts).2.2) ∧
    (∀ (hT : Nat → Bool) (hS : Socket → Bool) (env : Nat → TickEnv) (fuel : Nat)
      (st : LoopState),
      ¬(st.poll_items.length = 0 ∧ (removeFlagedTimers st.timer_handlers).length = 0) →
      (env fuel).terminated = false →
      (fireTimers hT (env fuel).time (removeFlagedTimers st.timer_handlers)).2.1 = false →
      run hT hS env (fuel + 1) st =
        (.stoppedByHandler,
          { st with timer_handlers :=
              (fireTimers hT (env fuel).time (removeFlagedTimers st.timer_handlers)).1 },
          ((fireTimers hT (env fuel).time (removeFlagedTimers st.timer_handlers)).2.2).map
            Event.timer)) ∧
    (∀ (hS : Socket → Bool) (table pre : List Socket) (s : Socket) (suf : List Socket),
      (fireSockets hS table pre).1 = true → table.contains s = true → hS s = false →
      fireSockets hS table (pre ++ s :: suf) =
        (false, (fireSockets hS table pre).2 ++ [s])) ∧
    (∀ (hT : Nat → Bool) (hS : Socket → Bool) (env : Nat → TickEnv) (fuel : Nat)
      (st : LoopState),
      ¬(st.poll_items.length = 0 ∧ (removeFlagedTimers st.timer_handlers).length = 0) →
      (env fuel).terminated = false →
      (fireTimers hT (env fuel).time (removeFlagedTimers st.timer_handlers)).2.1 = true →
      (fireSockets hS st.socket_handlers (env fuel).ready).1 = false →
      run hT hS env (fuel + 1) st =
        (.stoppedByHandler,
          { st with timer_handlers :=
              (fireTimers hT (env fuel).time (removeFlagedTimers st.timer_handlers)).1 },
          ((fireTimers hT (env fuel).time (removeFlagedTimers st.timer_handlers)).2.2).map
              Event.timer ++
            ((fireSockets hS st.socket_handlers (env fuel).ready).2).map Event.socket)) := by
  refine ⟨fireTimers_fired_of_continue, fun hT hS table env ts => ?_, ?_, ?_, ?_⟩
  · unfold runTick
    by_cases hb : (fireTimers hT env.time ts).2.1 = false
    · rw [if_pos hb]
      exact ⟨(fireTimers hT env.time ts).2.2, [], by simp, rfl⟩
    · rw [if_neg hb]
      exact ⟨(fireTimers hT env.time ts).2.2, (fireSockets hS table env.ready).2, rfl, rfl⟩
  · intro hT hS env fuel st hne hterm hbreak
    rw [run]
    dsimp only
    rw [if_neg hne, hterm]
    rw [if_neg (by simp)]
    unfold runTick
    dsimp only
    rw [if_pos hbreak]
    rw [if_pos rfl]
  · intro hS table pre s suf hc hmem hh
    rw [fireSockets_append hS table pre (s :: suf) hc,
      fireSockets_cons_break hS table s suf hmem hh]
  · intro hT hS env fuel st hne hterm htcont hsock
    have hnotbreak :
        ¬((fireTimers hT (env fuel).time (removeFlagedTimers st.timer_handlers)).2.1 =
          false) := by
      simp [htcont]
    rw [run]
    dsimp only
    rw [if_neg hne, hterm]
    rw [if_neg (by simp)]
    unfold runTick
    dsimp only
    rw [if_neg hnotbreak]
    simp [hsock]

/-- Witness for C2 at concrete states: a one-timer loop whose timer
handler vetoes, and a one-socket loop whose socket handler vetoes, each
make run return after the first iteration having fired only that
handler. -/
theorem C2_timer_dispatch_order_witness :
    run (fun _ => false) (fun _ => true) (fun _ => ⟨[], false, 0⟩) 1
        ⟨[], [], [⟨1, 0, 1, 0, false⟩], 1, false⟩ =
      (.stoppedByHandler, ⟨[], [], [⟨1, 0, 1, 0, false⟩], 1, false⟩, [Event.timer 1]) ∧
    run (fun _ => true) (fun _ => false) (fun _ => ⟨[7], false, 0⟩) 1
        ⟨[7], [7], [], 1, false⟩ =
      (.stoppedByHandler, ⟨[7], [7], [], 1, false⟩, [Event.socket 7]) :=
  ⟨C2_timer_dispatch_order.2.2.1 (fun _ => false) (fun _ => true) (fun _ => ⟨[], false, 0⟩) 0
    ⟨[], [], [⟨1, 0, 1, 0, false⟩], 1, false⟩ (by decide) rfl (by rfl),
   C2_timer_dispatch_order.2.2.2.2 (fun _ => true) (fun _ => false) (fun _ => ⟨[7], false, 0⟩)
    0 ⟨[7], [7], [], 1, false⟩ (by decide) rfl (by rfl) (by rfl)⟩


/-! ## C6 — occurrence semantics: 0 means forever, n means exactly n -/

/-- C6: a firing with remaining occurrences 0 advances the deadline and
never erases the timer; a firing with remaining occurrences 1 erases it
(the count reached zero); a firing with remaining occurrences n+2
decrements to n+1 and keeps it — so a timer created with n > 0 fires
exactly n times; and a loop whose only work is one timer with zero
interval and 5 occurrences invokes that handler exactly five times and
then returns by exhaustion. -/
theorem C6_timer_occurrences :
    (∀ (hT : Nat → Bool) (time : Int) (t : Timer) (rest : List Timer),
      t.removed = false → time ≥ t.next_occurence → hT t.id = true →
      (t.occurences = 0 →
        fireTimers hT time (t :: rest) =
          ({ t with next_occurence := t.next_occurence + t.timeout } ::
              (fireTimers hT time rest).1,
            (fireTimers hT time rest).2.1, t.id :: (fireTimers hT time rest).2.2)) ∧
      (t.occurences = 1 →
        fireTimers hT time (t :: rest) =
          ((fireTimers hT time rest).1, (fireTimers hT time rest).2.1,
            t.id :: (fireTimers hT time rest).2.2)) ∧
      (∀ n, t.occurences = n + 2 →
        fireTimers hT time (t :: rest) =
          ({ t with occurences := n + 1, next_occurence := t.next_occurence + t.timeout } ::
              (fireTimers hT time rest).1,
            (fireTimers hT time rest).2.1, t.id :: (fireTimers hT time rest).2.2))) ∧
    run (fun _ => true) (fun _ => true) (fun _ => ⟨[], false, 0⟩) 7
        ⟨[], [], [⟨1, 0, 5, 0, false⟩], 1, false⟩ =
      (.exhausted, ⟨[], [], [], 1, false⟩,
        [Event.timer 1, Event.timer 1, Event.timer 1, Event.timer 1, Event.timer 1]) := by
  refine ⟨fun hT time t rest hr hd hh => ⟨fun h0 => ?_, fun h1 => ?_, fun n hn => ?_⟩, ?_⟩
  · rw [fireTimers_cons_fire hT time t rest ⟨hr, hd⟩ hh (by omega)]
    unfold firedTimer
    rw [if_neg (by omega)]
  · exact fireTimers_cons_erase hT time t rest ⟨hr, hd⟩ hh h1
  · rw [fireTimers_cons_fire hT time t rest ⟨hr, hd⟩ hh (by omega)]
    unfold firedTimer
    rw [if_pos (by omega), hn]
    norm_num
  · rfl

/-- Witness for C6: an infinite (occurrences 0) timer due at time 5 fires
and survives with its deadline advanced by its interval. -/
theorem C6_timer_occurrences_witness :
    fireTimers (fun _ => true) 5 [⟨1, 3, 0, 2, false⟩] = ([⟨1, 3, 0, 5, false⟩], true, [1]) :=
  (C6_timer_occurrences.1 (fun _ => true) 5 ⟨1, 3, 0, 2, false⟩ [] rfl (by decide) rfl).1 rfl

/-! ## C8 — deadline monotonicity across firings -/

/-- Counterexample to C8 as stated: a timer created with interval 0 (which
add_timer permits, and which the zero-interval scenario of the spec
itself uses in its five-shot scenario) fires at time 0, survives, and its next_occurence is exactly
the value it had before the firing — not strictly greater. -/
theorem C8_counterexample_zero_interval :
    fireTimers (fun _ => true) 0 [⟨1, 0, 0, 0, false⟩] = ([⟨1, 0, 0, 0, false⟩], true, [1]) ∧
    ¬ ((0 : Int) > 0) :=
  ⟨rfl, by decide⟩

/-- C8 (amended): each firing that keeps the timer alive advances its
next_occurence by exactly the timer's interval; hence the deadline is
strictly increasing across surviving firings whenever the interval is
positive, and non-decreasing whenever it is non-negative — but not
strictly increasing for a zero interval. -/
theorem C8_deadline_advances_by_interval (hT : Nat → Bool) (time : Int) (t : Timer)
    (rest : List Timer) (hr : t.removed = false) (hd : time ≥ t.next_occurence)
    (hh : hT t.id = true) (ho : t.occurences ≠ 1) :
    (fireTimers hT time (t :: rest)).1 = firedTimer t :: (fireTimers hT time rest).1 ∧
    (firedTimer t).next_occurence = t.next_occurence + t.timeout ∧
    (t.timeout > 0 → (firedTimer t).next_occurence > t.next_occurence) ∧
    (t.timeout ≥ 0 → (firedTimer t).next_occurence ≥ t.next_occurence) := by
  have hadv : (firedTimer t).next_occurence = t.next_occurence + t.timeout := by
    unfold firedTimer
    split <;> rfl
  refine ⟨?_, hadv, fun hpos => by omega, fun hnn => by omega⟩
  rw [fireTimers_cons_fire hT time t rest ⟨hr, hd⟩ hh ho]

/-- Witness for the amended C8: a timer with interval 3 due at time 5
advances its deadline from 2 to 5. -/
theorem C8_deadline_advances_by_interval_witness :
    (fireTimers (fun _ => true) 5 [⟨1, 3, 0, 2, false⟩]).1 =
      firedTimer ⟨1, 3, 0, 2, false⟩ :: [] ∧
    (firedTimer ⟨1, 3, 0, 2, false⟩).next_occurence = 2 + 3 :=
  ⟨(C8_deadline_advances_by_interval (fun _ => true) 5 ⟨1, 3, 0, 2, false⟩ [] rfl
      (by decide) rfl (by decide)).1,
   (C8_deadline_advances_by_interval (fun _ => true) 5 ⟨1, 3, 0, 2, false⟩ [] rfl
      (by decide) rfl (by decide)).2.1⟩

/-! ## C7 — unique timer-id generation -/

/-- The generator's data invariant: the counter is a 64-bit value, every
live id is a non-zero 64-bit value, and before any wraparound every live
id is at most the counter (ids are handed out in increasing order). -/
def TimerIdInv (timers : List Timer) (last : Nat) (ovf : Bool) : Prop :=
  last < UINT64_CARD ∧ (∀ t ∈ timers, t.id ≠ 0 ∧ t.id < UINT64_CARD) ∧
  (ovf = false → ∀ t ∈ timers, t.id ≤ last)

/-- The first candidate id an allocation tries: the pre-incremented
counter, skipping zero on wrap. -/
def firstCandidate (last : Nat) : Nat :=
  if (last + 1) % UINT64_CARD = 0 then 1 else (last + 1) % UINT64_CARD

/-- A successful scan returns a candidate held by no live timer, equal to
the final counter, still non-zero and in range. -/
theorem scanForFree_some (ts : List Timer) :
    ∀ (fuel timer_id rid last' : Nat), timer_id ≠ 0 → timer_id < UINT64_CARD →
      scanForFree ts fuel timer_id = some (rid, last') →
      (∀ t ∈ ts, t.id ≠ rid) ∧ last' = rid ∧ rid ≠ 0 ∧ rid < UINT64_CARD := by
  intro fuel
  induction fuel with
  | zero => intro timer_id rid last' _ _ h; simp [scanForFree] at h
  | succ fuel ih =>
    intro timer_id rid last' hnz hlt h
    rw [scanForFree] at h
    by_cases hany : ts.any (fun t => t.id == timer_id) = true
    · rw [if_pos hany] at h
      by_cases hz : (timer_id + 1) % UINT64_CARD = 0
      · rw [if_pos hz] at h
        simp at h
      · rw [if_neg hz] at h
        exact ih ((timer_id + 1) % UINT64_CARD) rid last' hz (Nat.mod_lt _ (by decide)) h
    · rw [if_neg hany] at h
      simp only [Option.some.injEq, Prod.mk.injEq] at h
      obtain ⟨hr, hl⟩ := h
      subst hr
      refine ⟨fun t ht heq => hany ?_, hl.symm, hnz, hlt⟩
      rw [List.any_eq_true]
      exact ⟨t, ht, by simp [heq]⟩

/-- A scan that throws saw a live timer on every id from its starting
candidate up to the top of the id range (it never wraps past the top to
retry smaller ids). -/
theorem scanForFree_none (ts : List Timer) :
    ∀ (fuel timer_id : Nat), timer_id ≠ 0 → timer_id < UINT64_CARD →
      UINT64_CARD - timer_id ≤ fuel →
      scanForFree ts fuel timer_id = none →
      ∀ v, timer_id ≤ v → v < UINT64_CARD → ∃ t ∈ ts, t.id = v := by
  intro fuel
  induction fuel with
  | zero => intro timer_id hnz hlt hfuel _; omega
  | succ fuel ih =>
    intro timer_id hnz hlt hfuel h v hv1 hv2
    rw [scanForFree] at h
    by_cases hany : ts.any (fun t => t.id == timer_id) = true
    · have hlive : ∃ t ∈ ts, t.id = timer_id := by
        rw [List.any_eq_true] at hany
        obtain ⟨t, ht, he⟩ := hany
        exact ⟨t, ht, by simpa using he⟩
      rw [if_pos hany] at h
      by_cases hz : (timer_id + 1) % UINT64_CARD = 0
      · have : timer_id = UINT64_CARD - 1 := by
          have h1 : timer_id + 1 ≤ UINT64_CARD := hlt
          rcases Nat.lt_or_ge (timer_id + 1) UINT64_CARD with hc | hc
          · rw [Nat.mod_eq_of_lt hc] at hz
            omega
          · omega
        have : v = timer_id := by omega
        exact this ▸ hlive
      · rw [if_neg hz] at h
        have hlt1 : timer_id + 1 < UINT64_CARD := by
          rcases Nat.lt_or_ge (timer_id + 1) UINT64_CARD with hc | hc
          · exact hc
          · have : timer_id + 1 = UINT64_CARD := by omega
            rw [this, Nat.mod_self] at hz
            exact absurd rfl hz
        rw [Nat.mod_eq_of_lt hlt1] at h
        rcases Nat.eq_or_lt_of_le hv1 with he | hlt2
        · exact he ▸ hlive
        · exact ih (timer_id + 1) (by omega) hlt1 (by omega) h v (by omega) hv2
    · rw [if_neg hany] at h
      simp at h

/-- Counterexample to C7 as stated: with the overflow flag set, the counter
at 2^64 − 2 and a single live timer holding id 2^64 − 1, the generator
throws "no id available" — yet id 1 lies in the id range and is held by no
live timer, and the state satisfies the generator's data invariant. -/
theorem C7_counterexample_premature_exhaustion :
    generate_unique_timer_id [⟨UINT64_CARD - 1, 0, 0, 0, false⟩] (UINT64_CARD - 2) true =
      none ∧
    (1 : Nat) ≠ 0 ∧ (1 : Nat) < UINT64_CARD ∧
    (∀ t ∈ [(⟨UINT64_CARD - 1, 0, 0, 0, false⟩ : Timer)], t.id ≠ 1) ∧
    TimerIdInv [⟨UINT64_CARD - 1, 0, 0, 0, false⟩] (UINT64_CARD - 2) true := by
  refine ⟨by rfl, by decide, by decide, ?_, ?_, ?_, ?_⟩
  · intro t ht
    simp only [List.mem_singleton] at ht
    subst ht
    decide
  · decide
  · intro t ht
    simp only [List.mem_singleton] at ht
    subst ht
    refine ⟨by decide, by decide⟩
  · intro hovf
    simp at hovf

/-- C7 (amended): under the generator invariant, every id that add_timer
returns is non-zero and distinct from every live timer id at the time of
return, and the invariant is re-established; and the "no id available"
failure occurs exactly when every id from the first candidate (the
incremented counter) up to the top of the 64-bit range is held by a live
timer — the scan does not wrap past the top to retry smaller free ids. -/
theorem C7_amended_unique_timer_id (st : LoopState) (now timeout : Int) (occ : Nat)
    (hinv : TimerIdInv st.timer_handlers st.last_timer_id st.timer_id_has_overflowed) :
    (∀ id st', loop_add_timer st now timeout occ = some (id, st') →
      id ≠ 0 ∧ (∀ t ∈ st.timer_handlers, t.id ≠ id) ∧
      TimerIdInv st'.timer_handlers st'.last_timer_id st'.timer_id_has_overflowed) ∧
    (loop_add_timer st now timeout occ = none →
      ∀ v, firstCandidate st.last_timer_id ≤ v → v < UINT64_CARD →
        ∃ t ∈ st.timer_handlers, t.id = v) := by
  obtain ⟨hlast, hids, hmono⟩ := hinv
  constructor
  · intro id st' h
    unfold loop_add_timer generate_unique_timer_id at h
    by_cases h0 : (st.last_timer_id + 1) % UINT64_CARD = 0
    · rw [if_pos h0] at h
      rcases hs : scanForFree st.timer_handlers UINT64_CARD 1 with _ | ⟨rid, rlast⟩
      · rw [hs] at h
        simp at h
      · rw [hs] at h
        simp only [Option.some.injEq, Prod.mk.injEq] at h
        obtain ⟨rfl, rfl⟩ := h
        obtain ⟨hfree, hlasteq, hnz, hlt2⟩ := scanForFree_some st.timer_handlers
          UINT64_CARD 1 _ _ (by decide) (by decide) hs
        refine ⟨hnz, hfree, ?_, ?_, ?_⟩
        · dsimp only
          omega
        · intro t ht
          dsimp only at ht
          rcases List.mem_append.mp ht with hmem | hmem
          · exact hids t hmem
          · simp only [List.mem_singleton] at hmem
            subst hmem
            exact ⟨hnz, hlt2⟩
        · intro hovf
          simp at hovf
    · rw [if_neg h0] at h
      by_cases hovfl : st.timer_id_has_overflowed = true
      · rw [if_pos hovfl] at h
        rcases hs : scanForFree st.timer_handlers UINT64_CARD
            ((st.last_timer_id + 1) % UINT64_CARD) with _ | ⟨rid, rlast⟩
        · rw [hs] at h
          simp at h
        · rw [hs] at h
          simp only [Option.some.injEq, Prod.mk.injEq] at h
          obtain ⟨rfl, rfl⟩ := h
          obtain ⟨hfree, hlasteq, hnz, hlt2⟩ := scanForFree_some st.timer_handlers
            UINT64_CARD ((st.last_timer_id + 1) % UINT64_CARD) _ _ h0
            (Nat.mod_lt _ (by decide)) hs
          refine ⟨hnz, hfree, ?_, ?_, ?_⟩
          · dsimp only
            omega
          · intro t ht
            dsimp only at ht
            rcases List.mem_append.mp ht with hmem | hmem
            · exact hids t hmem
            · simp only [List.mem_singleton] at hmem
              subst hmem
              exact ⟨hnz, hlt2⟩
          · intro hovf
            dsimp only at hovf
            rw [hovf] at hovfl
            simp at hovfl
      · rw [if_neg hovfl] at h
        simp only [Option.some.injEq, Prod.mk.injEq] at h
        obtain ⟨rfl, rfl⟩ := h
        have hovfalse : st.timer_id_has_overflowed = false := Bool.eq_false_iff.mpr hovfl
        have hlt1 : st.last_timer_id + 1 < UINT64_CARD := by
          rcases Nat.lt_or_ge (st.last_timer_id + 1) UINT64_CARD with hc | hc
          · exact hc
          · exfalso
            apply h0
            have he : st.last_timer_id + 1 = UINT64_CARD := by omega
            rw [he, Nat.mod_self]
        have hmod : (st.last_timer_id + 1) % UINT64_CARD = st.last_timer_id + 1 :=
          Nat.mod_eq_of_lt hlt1
        have hbound := hmono hovfalse
        have hu1 : ∀ t ∈ st.timer_handlers,
            t.id ≠ (st.last_timer_id + 1) % UINT64_CARD := by
          intro t ht
          have := hbound t ht
          rw [hmod]
          omega
        refine ⟨h0, fun t ht => hu1 t ht, ?_, ?_, ?_⟩
        · dsimp only
          rw [hmod]
          omega
        · intro t ht
          dsimp only at ht
          rcases List.mem_append.mp ht with hmem | hmem
          · exact hids t hmem
          · simp only [List.mem_singleton] at hmem
            subst hmem
            refine ⟨h0, ?_⟩
            dsimp only
            rw [hmod]
            omega
        · intro _ t ht
          dsimp only at ht ⊢
          rcases List.mem_append.mp ht with hmem | hmem
          · have := hbound t hmem
            omega
          · simp only [List.mem_singleton] at hmem
            subst hmem
            simp
  · intro h v hv1 hv2
    unfold loop_add_timer at h
    rcases hg : generate_unique_timer_id st.timer_handlers st.last_timer_id
        st.timer_id_has_overflowed with _ | p
    · clear h
      unfold generate_unique_timer_id at hg
      by_cases h0 : (st.last_timer_id + 1) % UINT64_CARD = 0
      · rw [if_pos h0] at hg
        rcases hs : scanForFree st.timer_handlers UINT64_CARD 1 with _ | p2
        · have hall := scanForFree_none st.timer_handlers UINT64_CARD 1
            (by decide) (by decide) (by decide) hs
          have hfc : firstCandidate st.last_timer_id = 1 := by
            unfold firstCandidate
            rw [if_pos h0]
          rw [hfc] at hv1
          exact hall v hv1 hv2
        · rw [hs] at hg
          simp at hg
      · rw [if_neg h0] at hg
        by_cases hovfl : st.timer_id_has_overflowed = true
        · rw [if_pos hovfl] at hg
          rcases hs : scanForFree st.timer_handlers UINT64_CARD
              ((st.last_timer_id + 1) % UINT64_CARD) with _ | p2
          · have hall := scanForFree_none st.timer_handlers UINT64_CARD
              ((st.last_timer_id + 1) % UINT64_CARD) h0
              (Nat.mod_lt _ (by decide)) (by omega) hs
            have hfc : firstCandidate st.last_timer_id =
                (st.last_timer_id + 1) % UINT64_CARD := by
              unfold firstCandidate
              rw [if_neg h0]
            rw [hfc] at hv1
            exact hall v hv1 hv2
          · rw [hs] at hg
            simp at hg
        · rw [if_neg hovfl] at hg
          simp at hg
    · rw [hg] at h
      simp at h

/-- Witness for the amended C7: from the fresh loop state, adding a timer
yields id 1, which is non-zero, collides with no live timer, and leaves
the generator invariant intact. -/
theorem C7_amended_unique_timer_id_witness :
    (1 : Nat) ≠ 0 ∧ (∀ t ∈ ([] : List Timer), t.id ≠ 1) ∧
    TimerIdInv [⟨1, 5, 1, 5, false⟩] 1 false :=
  (C7_amended_unique_timer_id ⟨[], [], [], 0, false⟩ 0 5 1
      ⟨by decide, by simp, by simp⟩).1 1 ⟨[], [], [⟨1, 5, 1, 5, false⟩], 1, false⟩ rfl

/-! ## C5 — flags after Actor.stop -/

/-- Any resolution of the stop drain loop carries the started flag through
unchanged and sets the stopped flag. -/
theorem stopRecvLoop_flags (st : ActorState) :
    ∀ (recvs : List (Option (List Nat))) (st' : ActorState) (r : Bool),
      stopRecvLoop st recvs = some (st', r) →
      st'.started = st.started ∧ st'.stopped = true := by
  intro recvs
  induction recvs with
  | nil => intro st' r h; simp [stopRecvLoop] at h
  | cons recv rest ih =>
    intro st' r h
    cases recv with
    | none =>
      unfold stopRecvLoop at h
      simp only [Option.some.injEq, Prod.mk.injEq] at h
      obtain ⟨h1, _⟩ := h
      rw [← h1]
      exact ⟨rfl, rfl⟩
    | some msg =>
      unfold stopRecvLoop at h
      dsimp only at h
      by_cases hs : (check_signal msg).isSome = true
      · rw [if_pos hs] at h
        simp only [Option.some.injEq, Prod.mk.injEq] at h
        obtain ⟨h1, _⟩ := h
        rw [← h1]
        exact ⟨rfl, rfl⟩
      · rw [if_neg hs] at h
        exact ih st' r h

/-- Counterexample to C5 as stated: calling stop on an actor that was
never started returns true immediately and leaves started = false (and
stopped = false) — so "started = true after stop returns, whatever the
path" fails on the never-started path. -/
theorem C5_counterexample_stop_before_start :
    actor_stop ⟨false, false, true⟩ true [] = some (⟨false, false, true⟩, true) ∧
    (⟨false, false, true⟩ : ActorState).started = false ∧
    (⟨false, false, true⟩ : ActorState).stopped = false :=
  ⟨rfl, rfl, rfl⟩

/-- C5 (amended): whenever stop returns on an actor whose started flag is
set — whatever its return value or reason, including the destructor's call
— the instance satisfies started = true and stopped = true; on a
never-started actor stop returns true at once and changes nothing. -/
theorem C5_amended_stop_flags (st : ActorState) (send_ok : Bool)
    (recvs : List (Option (List Nat))) (st' : ActorState) (r : Bool)
    (h : actor_stop st send_ok recvs = some (st', r)) :
    (st.started = true → st'.started = true ∧ st'.stopped = true) ∧
    (st.started = false → st' = st ∧ r = true) := by
  unfold actor_stop at h
  by_cases hc : st.started = false ∨ st.stopped = true
  · rw [if_pos hc] at h
    simp only [Option.some.injEq, Prod.mk.injEq] at h
    obtain ⟨h1, h2⟩ := h
    constructor
    · intro hstarted
      rw [← h1]
      rcases hc with hF | hT
      · rw [hstarted] at hF
        cases hF
      · exact ⟨hstarted, hT⟩
    · intro _
      exact ⟨h1.symm, h2.symm⟩
  · rw [if_neg hc] at h
    have hstarted : st.started = true := by
      rcases hb : st.started with _ | _
      · exact absurd (Or.inl hb) hc
      · rfl
    refine ⟨fun _ => ?_, fun hF => by rw [hF] at hstarted; cases hstarted⟩
    by_cases hsend : send_ok = false
    · rw [if_pos hsend] at h
      simp only [Option.some.injEq, Prod.mk.injEq] at h
      obtain ⟨h1, _⟩ := h
      rw [← h1]
      exact ⟨hstarted, rfl⟩
    · rw [if_neg hsend] at h
      have := stopRecvLoop_flags st recvs st' r h
      exact ⟨this.1.trans hstarted, this.2⟩

/-- Witness for the amended C5: a started, unstopped actor whose stop-send
fails ends with both flags set. -/
theorem C5_amended_stop_flags_witness :
    (⟨true, true, false⟩ : ActorState).started = true ∧
    (⟨true, true, false⟩ : ActorState).stopped = true :=
  (C5_amended_stop_flags ⟨true, false, true⟩ false [] ⟨true, true, false⟩ true rfl).1 rfl

/-! ## C9 — any non-Success first message fails initialization -/

/-- C9: in start, any first message that does not decode as a Success
signal — a Failure signal, a Stop signal, or any non-signal payload — is
treated identically: started stays set, stopped becomes true, the parent
socket is closed, and start throws the saved exception when the cell holds
one, else the "Actor initialization failed" error. -/
theorem C9_start_non_success_is_init_failure (st : ActorState) (saved_exception : Bool)
    (msg : List Nat) (hns : st.started = false)
    (hnot : check_signal msg ≠ some SignalType.success) :
    actor_start st saved_exception (some msg) =
      (⟨true, true, false⟩,
        if saved_exception then StartResult.threwSaved else StartResult.threwInitFailed) := by
  unfold actor_start
  rw [if_neg (by simp [hns])]
  dsimp only
  rcases hcs : check_signal msg with _ | sig
  · rfl
  · cases sig with
    | success => exact absurd hcs hnot
    | failure => rfl
    | stop => rfl

/-- Witness for C9: a well-formed Stop signal as the first message yields
the generic initialization failure with both flags set and the socket
closed. -/
theorem C9_start_non_success_is_init_failure_witness :
    actor_start ⟨false, false, true⟩ false (some (create_signal_message SignalType.stop)) =
      (⟨true, true, false⟩, StartResult.threwInitFailed) :=
  C9_start_non_success_is_init_failure ⟨false, false, true⟩ false
    (create_signal_message SignalType.stop) rfl (by decide)

end Zmqzext
